import Mathlib

/-!
Verification of the DSA (dynamic situational awareness) glue classes:
`DataItemListModel` (with its nested `DataItem` struct and extension
classifier), `AlertSource`'s destructor, and
`ViewedAlertsController::unviewedCount`.

The C++ is embedded shallowly: `QString` becomes `String`, `QList<T>`
becomes `List T`, an invalid `QVariant` becomes `none`, `int` indices
coming from Qt become `Int`, and Qt case folding is modelled as ASCII
lowercasing (all the extensions compared against are ASCII).
-/

/-- The `DataType` enum of the data-format tags assigned by
`DataItemListModel::DataItem`. -/
inductive DataType where
  | Geodatabase
  | TilePackage
  | Shapefile
  | GeoPackage
  | SceneLayerPackage
  | VectorTilePackage
  | Markup
  | Kml
  | Raster
  | Unknown
deriving DecidableEq, Repr

/-- ASCII lowercasing of a single character, as Qt case folding acts on
the ASCII range ('A'..'Z' map to 'a'..'z', everything else fixed). -/
def qtCharToLower (c : Char) : Char :=
  if 65 ≤ c.toNat ∧ c.toNat ≤ 90 then Char.ofNat (c.toNat + 32) else c

/-- ASCII lowercasing of a string (`QString::toLower` restricted to the
ASCII range, which covers every extension literal in the source). -/
def strToLower (s : String) : String :=
  ⟨s.data.map qtCharToLower⟩

/-- `QString::compare(a, b, Qt::CaseInsensitive) == 0`: equality up to
case folding. -/
def qstringCompareCI (a b : String) : Bool :=
  strToLower a == strToLower b

/-- The characters of a path after its last '/' separator:
`QFileInfo::fileName` on the character list. -/
def fileNameChars (l : List Char) : List Char :=
  l.foldl (fun acc c => if c = '/' then [] else acc ++ [c]) []

/-- `QFileInfo::fileName`: the component of `fullPath` after the last
directory separator. -/
def fileNameOf (fullPath : String) : String :=
  ⟨fileNameChars fullPath.data⟩

/-- The characters after the first '.' of a file name (empty when there
is no dot). -/
def afterFirstDot (l : List Char) : List Char :=
  match l with
  | [] => []
  | c :: rest => if c = '.' then rest else afterFirstDot rest

/-- `QFileInfo::completeSuffix` applied to a file name: all characters
after (but not including) the first '.'. -/
def completeSuffix (fileName : String) : String :=
  ⟨afterFirstDot fileName.data⟩

/-- The raster-extension list of the `DataItem` constructor. -/
def rasterExtensions : List String :=
  ["img", "tif", "tiff", "i1", "dt0", "dt1", "dt2", "tc2", "geotiff",
   "hr1", "jpg", "jpeg", "jp2", "ntf", "png", "i21", "sid"]

/-- The extension-classification chain of the `DataItem` constructor
(`DataItemListModel::DataItem::DataItem`, the if/else cascade on
`fileExtension`). Note the first check is an exact (case-sensitive)
comparison while every later one folds case. -/
def classify (fileExtension : String) : DataType :=
  if fileExtension == "geodatabase" then DataType.Geodatabase
  else if qstringCompareCI fileExtension "tpk" then DataType.TilePackage
  else if qstringCompareCI fileExtension "shp" then DataType.Shapefile
  else if qstringCompareCI fileExtension "gpkg" then DataType.GeoPackage
  else if qstringCompareCI fileExtension "slpk" then DataType.SceneLayerPackage
  else if qstringCompareCI fileExtension "vtpk" then DataType.VectorTilePackage
  else if qstringCompareCI fileExtension "markup" then DataType.Markup
  else if qstringCompareCI fileExtension "kml" || qstringCompareCI fileExtension "kmz" then DataType.Kml
  else if rasterExtensions.contains (strToLower fileExtension) then DataType.Raster
  else DataType.Unknown

/-- The `DataItem` struct nested in `DataItemListModel`. -/
structure DataItem where
  fullPath : String
  fileName : String
  dataType : DataType
deriving DecidableEq, Repr

/-- The `DataItem` constructor: stores `fullPath`, derives `fileName`
via `QFileInfo`, and classifies the complete suffix of the file name. -/
def mkDataItem (fullPath : String) : DataItem :=
  { fullPath := fullPath
    fileName := fileNameOf fullPath
    dataType := classify (completeSuffix (fileNameOf fullPath)) }

/-- The state of a `DataItemListModel`: its `m_dataItems` list. -/
structure DataItemListModel where
  dataItems : List DataItem
deriving DecidableEq, Repr

/-- The `DataItemRoles` values the model's `data` switch distinguishes:
`FullPathRole`, `FileNameRole`, and (as one case) any other role value,
which the `default` branch leaves as an invalid variant. -/
inductive DataItemRole where
  | fullPathRole
  | fileNameRole
  | otherRole
deriving DecidableEq, Repr

/-- `DataItemListModel::addDataItem`: appends a new item constructed
from `fullPath`. -/
def DataItemListModel.addDataItem (m : DataItemListModel) (fullPath : String) : DataItemListModel :=
  ⟨m.dataItems ++ [mkDataItem fullPath]⟩

/-- `DataItemListModel::rowCount`: the number of stored items. -/
def DataItemListModel.rowCount (m : DataItemListModel) : Nat :=
  m.dataItems.length

/-- `DataItemListModel::clear`: resets the model to the empty list. -/
def DataItemListModel.clear (m : DataItemListModel) : DataItemListModel :=
  ⟨[]⟩

/-- `DataItemListModel::data(index, role)`: guarded by
`index.row() < 0 || index.row() >= m_dataItems.count()`, then a switch
on the role; `none` is the invalid `QVariant`. -/
def DataItemListModel.data (m : DataItemListModel) (row : Int) (role : DataItemRole) : Option String :=
  if row < 0 ∨ (m.dataItems.length : Int) ≤ row then none
  else
    match m.dataItems[row.toNat]? with
    | none => none
    | some dataItem =>
      match role with
      | DataItemRole.fullPathRole => some dataItem.fullPath
      | DataItemRole.fileNameRole => some dataItem.fileName
      | DataItemRole.otherRole => none

/-- `QList::at(i)` on a possibly negative `int` index: `none` marks an
out-of-bounds access (undefined behaviour in the C++). -/
def qlistAt (l : List DataItem) (i : Int) : Option DataItem :=
  if 0 ≤ i ∧ i < (l.length : Int) then l[i.toNat]? else none

/-- `DataItemListModel::getDataItemType`: returns `Unknown` when
`index >= m_dataItems.size()`, otherwise reads `at(index).dataType`.
Only the upper bound is guarded; a `none` result marks the unguarded
out-of-bounds access a negative index performs. -/
def DataItemListModel.getDataItemType (m : DataItemListModel) (i : Int) : Option DataType :=
  if (m.dataItems.length : Int) ≤ i then some DataType.Unknown
  else (qlistAt m.dataItems i).map DataItem.dataType

/-- `DataItemListModel::getDataItemPath`: returns the empty `QString`
when `index >= m_dataItems.size()`, otherwise reads `at(index).fullPath`.
Only the upper bound is guarded; a `none` result marks the unguarded
out-of-bounds access a negative index performs. -/
def DataItemListModel.getDataItemPath (m : DataItemListModel) (i : Int) : Option String :=
  if (m.dataItems.length : Int) ≤ i then some ""
  else (qlistAt m.dataItems i).map DataItem.fullPath

/-- Repeated `addDataItem` calls, one per path, in order. -/
def DataItemListModel.addAll (m : DataItemListModel) (ps : List String) : DataItemListModel :=
  ps.foldl DataItemListModel.addDataItem m

/-- A model is well formed when every stored item is exactly the item
the `DataItem` constructor builds from its own `fullPath` — i.e. its
classification was computed at construction and never changed. -/
def DataItemListModel.wellFormed (m : DataItemListModel) : Prop :=
  ∀ item ∈ m.dataItems, item = mkDataItem item.fullPath

/-- An `AlertConditionData` entry as read by the controller: only its
`active()` and `viewed()` predicates matter. -/
structure AlertConditionData where
  active : Bool
  viewed : Bool
deriving DecidableEq, Repr

/-- The state of the global `AlertListModel` singleton: a list of
entries, each possibly null (`alertAt` may return `nullptr`). -/
structure AlertListModel where
  alerts : List (Option AlertConditionData)
deriving DecidableEq, Repr

/-- `AlertListModel::rowCount`. -/
def AlertListModel.rowCount (m : AlertListModel) : Nat :=
  m.alerts.length

/-- `AlertListModel::alertAt(i)`: the stored pointer at row `i`
(null for a null entry or an out-of-range row). -/
def AlertListModel.alertAt (m : AlertListModel) (i : Nat) : Option AlertConditionData :=
  (m.alerts[i]?).join

/-- One iteration of the `unviewedCount` loop body: the three
`continue` guards (null alert, not active, already viewed) followed by
`count++`. -/
def unviewedStep (model : AlertListModel) (count : Nat) (i : Nat) : Nat :=
  match model.alertAt i with
  | none => count
  | some alert =>
    if !alert.active then count
    else if alert.viewed then count
    else count + 1

/-- `ViewedAlertsController::unviewedCount`: returns 0 when the
`AlertListModel::instance()` singleton is null, otherwise runs the
counting loop `for i in 0 .. rowCount`. -/
def ViewedAlertsController.unviewedCount (inst : Option AlertListModel) : Nat :=
  match inst with
  | none => 0
  | some model => (List.range model.rowCount).foldl (unviewedStep model) 0

/-- The predicate the spec states `unviewedCount` counts: an entry that
is present, active and not yet viewed. -/
def unviewedPredB (o : Option AlertConditionData) : Bool :=
  match o with
  | some a => a.active && !a.viewed
  | none => false

/-- The events of one run of `AlertSource::~AlertSource`: the destructor
body is the single statement `emit noLongerValid();`, and destruction of
the object completes only after the body has run. -/
inductive AlertSourceEvent where
  | emitNoLongerValid
  | destructionComplete
deriving DecidableEq, Repr

/-- The effect trace of `AlertSource::~AlertSource`: the body emits
`noLongerValid`, then destruction completes. The body is straight-line
with no branch, so every destruction produces exactly this trace. -/
def alertSourceDestructorTrace : List AlertSourceEvent :=
  [AlertSourceEvent.emitNoLongerValid, AlertSourceEvent.destructionComplete]

/-- Helper: the counting loop, run up to row `n`, adds to its
accumulator the number of present, active, unviewed entries among the
first `n` list entries. -/
theorem unviewedLoop_eq (model : AlertListModel) :
    ∀ n, n ≤ model.alerts.length → ∀ c : Nat,
      (List.range n).foldl (unviewedStep model) c
        = c + (model.alerts.take n).countP unviewedPredB := by
  intro n
  induction n with
  | zero => intro _ c; simp
  | succ n ih =>
    intro h c
    have hn : n < model.alerts.length := Nat.lt_of_succ_le h
    have hget : model.alerts[n]? = some (model.alerts[n]) :=
      List.getElem?_eq_getElem hn
    rw [List.range_succ, List.foldl_append, ih (Nat.le_of_lt hn) c,
      List.take_succ, List.countP_append, hget]
    simp only [List.foldl_cons, List.foldl_nil]
    unfold unviewedStep AlertListModel.alertAt
    rw [hget]
    cases hcase : model.alerts[n] with
    | none => simp [unviewedPredB, Option.join]
    | some a =>
      cases ha : a.active <;> cases hv : a.viewed <;>
        simp [unviewedPredB, Option.join, ha, hv, Nat.add_assoc]

/-- Helper: with the singleton present, `unviewedCount` equals the
count of present, active, unviewed entries over the whole list. -/
theorem unviewedCount_some (m : AlertListModel) :
    ViewedAlertsController.unviewedCount (some m) = m.alerts.countP unviewedPredB := by
  have h := unviewedLoop_eq m m.alerts.length (Nat.le_refl _) 0
  simpa [ViewedAlertsController.unviewedCount, AlertListModel.rowCount,
    List.take_length] using h

/-- C1: for every state of the global alert list, `unviewedCount()`
returns exactly the number of entries whose `active()` is true and
whose `viewed()` is false; the count is recomputed from the list state
passed in, with no cached result. -/
theorem unviewedCount_counts_active_unviewed (m : AlertListModel) :
    ViewedAlertsController.unviewedCount (some m)
      = m.alerts.countP (fun o => (o.map (fun a => a.active && !a.viewed)).getD false) := by
  rw [unviewedCount_some]
  congr 1
  funext o
  cases o <;> rfl

/-- C10: `unviewedCount()` returns 0 when the `AlertListModel`
singleton is null, and null entries returned by `alertAt(i)` are
skipped — the count over any list equals the count over the same list
with its null entries removed. -/
theorem unviewedCount_null_handling :
    ViewedAlertsController.unviewedCount none = 0
    ∧ ∀ m : AlertListModel,
        ViewedAlertsController.unviewedCount (some m)
          = ViewedAlertsController.unviewedCount (some ⟨(m.alerts.filterMap id).map some⟩) := by
  refine ⟨rfl, fun m => ?_⟩
  rw [unviewedCount_some, unviewedCount_some]
  induction m.alerts with
  | nil => rfl
  | cons o t ih =>
    cases o with
    | none => simpa [List.filterMap_cons, List.countP_cons, unviewedPredB] using ih
    | some a => simp [List.filterMap_cons, List.countP_cons, unviewedPredB, ih]

/-- C9: every run of the `AlertSource` destructor emits the
`noLongerValid` notification, and the emission happens strictly before
destruction completes. -/
theorem alertSource_destructor_notifies :
    AlertSourceEvent.emitNoLongerValid ∈ alertSourceDestructorTrace
    ∧ alertSourceDestructorTrace.indexOf AlertSourceEvent.emitNoLongerValid
        < alertSourceDestructorTrace.indexOf AlertSourceEvent.destructionComplete := by
  decide

/-- Helper: repeated `addDataItem` appends the constructed items in
order after the existing ones. -/
theorem addAll_dataItems (ps : List String) :
    ∀ m : DataItemListModel,
      (m.addAll ps).dataItems = m.dataItems ++ ps.map mkDataItem := by
  induction ps with
  | nil => intro m; simp [DataItemListModel.addAll]
  | cons p t ih =>
    intro m
    have hstep : DataItemListModel.addAll m (p :: t)
        = DataItemListModel.addAll (m.addDataItem p) t := rfl
    rw [hstep, ih, DataItemListModel.addDataItem]
    simp

/-- Helper: `data` on an in-range row returns the stored item's
`fullPath` or `fileName` according to the role, and an invalid variant
for any other role. -/
theorem data_in_range (m : DataItemListModel) (i : Nat) (h : i < m.dataItems.length) :
    m.data (i : Int) DataItemRole.fullPathRole = some m.dataItems[i].fullPath
    ∧ m.data (i : Int) DataItemRole.fileNameRole = some m.dataItems[i].fileName
    ∧ m.data (i : Int) DataItemRole.otherRole = none := by
  have hguard : ¬(((i : Nat) : Int) < 0 ∨ (m.dataItems.length : Int) ≤ ((i : Nat) : Int)) := by
    omega
  have ht : (((i : Nat) : Int)).toNat = i := by omega
  refine ⟨?_, ?_, ?_⟩ <;>
    (unfold DataItemListModel.data
     rw [if_neg hguard, ht, List.getElem?_eq_getElem h])

/-- Helper: `data` on a negative or too-large row returns the invalid
variant for every role. -/
theorem data_out_of_range (m : DataItemListModel) (row : Int)
    (h : row < 0 ∨ (m.dataItems.length : Int) ≤ row) :
    ∀ role, m.data row role = none := by
  intro role
  unfold DataItemListModel.data
  rw [if_pos h]

/-- Helper: `classify` written with every case-folding comparison
expressed through `strToLower`. -/
theorem classify_eq (e : String) :
    classify e =
      if e == "geodatabase" then DataType.Geodatabase
      else if strToLower e == "tpk" then DataType.TilePackage
      else if strToLower e == "shp" then DataType.Shapefile
      else if strToLower e == "gpkg" then DataType.GeoPackage
      else if strToLower e == "slpk" then DataType.SceneLayerPackage
      else if strToLower e == "vtpk" then DataType.VectorTilePackage
      else if strToLower e == "markup" then DataType.Markup
      else if strToLower e == "kml" || strToLower e == "kmz" then DataType.Kml
      else if rasterExtensions.contains (strToLower e) then DataType.Raster
      else DataType.Unknown := rfl

/-- C5: for every model state, `data(index, role)` returns the stored
item's `fullPath` for `FullPathRole` and its `fileName` for
`FileNameRole` when the row is in `[0, count)`, and an invalid
`QVariant` when the row is negative, at least `count`, or the role is
any other value. -/
theorem data_role_spec (m : DataItemListModel) :
    (∀ i : Nat, ∀ h : i < m.dataItems.length,
        m.data (i : Int) DataItemRole.fullPathRole = some m.dataItems[i].fullPath
      ∧ m.data (i : Int) DataItemRole.fileNameRole = some m.dataItems[i].fileName
      ∧ m.data (i : Int) DataItemRole.otherRole = none)
    ∧ ∀ row : Int, (row < 0 ∨ (m.dataItems.length : Int) ≤ row) →
        ∀ role, m.data row role = none :=
  ⟨fun i h => data_in_range m i h, fun row h role => data_out_of_range m row h role⟩

/-- Witness for C5 at a one-item model: row 0 yields the stored path,
row -1 yields the invalid variant. -/
theorem data_role_spec_witness :
    (DataItemListModel.data ⟨[mkDataItem "survey.shp"]⟩ 0 DataItemRole.fullPathRole
        = some "survey.shp")
    ∧ DataItemListModel.data ⟨[mkDataItem "survey.shp"]⟩ (-1) DataItemRole.fullPathRole = none := by
  constructor
  · exact ((data_role_spec ⟨[mkDataItem "survey.shp"]⟩).1 0 (by decide)).1.trans (by decide)
  · exact (data_role_spec ⟨[mkDataItem "survey.shp"]⟩).2 (-1) (by decide) DataItemRole.fullPathRole

/-- C6: starting from any model state with `rowCount() == k`, adding N
items yields `rowCount() == k + N`, and `data()` lookups return the
appended items in insertion order. -/
theorem addAll_growth_and_order (m : DataItemListModel) (ps : List String) :
    (m.addAll ps).rowCount = m.rowCount + ps.length
    ∧ ∀ i : Nat, ∀ h : i < ps.length,
        (m.addAll ps).data ((m.rowCount + i : Nat) : Int) DataItemRole.fullPathRole
          = some ps[i] := by
  have hitems := addAll_dataItems ps m
  constructor
  · simp [DataItemListModel.rowCount, hitems]
  · intro i h
    have hlen : m.rowCount + i < (m.addAll ps).dataItems.length := by
      simp [hitems, DataItemListModel.rowCount]
      omega
    have hd := (data_in_range (m.addAll ps) (m.rowCount + i) hlen).1
    rw [hd]
    have hval : (m.addAll ps).dataItems[m.rowCount + i] = mkDataItem ps[i] := by
      have hle : m.dataItems.length ≤ m.rowCount + i := by
        simp [DataItemListModel.rowCount]
      simp only [hitems]
      rw [List.getElem_append_right hle]
      simp [DataItemListModel.rowCount, List.getElem_map]
    rw [hval]
    exact rfl

/-- Witness for C6: appending two items to the empty model and reading
back the second. -/
theorem addAll_growth_witness :
    (DataItemListModel.addAll ⟨[]⟩ ["survey.shp", "b.kml"]).data 1 DataItemRole.fullPathRole
      = some "b.kml" := by
  have h := (addAll_growth_and_order ⟨[]⟩ ["survey.shp", "b.kml"]).2 1 (by decide)
  exact h

/-- C7: for every model state, `clear()` followed by `rowCount()`
yields 0. -/
theorem clear_then_rowCount (m : DataItemListModel) :
    (m.clear).rowCount = 0 := rfl

/-- C8: model operations never mutate a stored item: `addDataItem`
leaves every already-stored entry unchanged and preserves the invariant
that every stored item is exactly what the `DataItem` constructor
computed from its `fullPath` (so its classification is set once at
construction and never recomputed); `clear` trivially maintains it. The
read-only operations (`data`, `rowCount`, the accessors) are embedded
as pure functions of the state, mirroring their `const` signatures. -/
theorem dataItems_immutable (m : DataItemListModel) (p : String) :
    (∀ i : Nat, i < m.dataItems.length →
        (m.addDataItem p).dataItems[i]? = m.dataItems[i]?)
    ∧ (m.wellFormed → (m.addDataItem p).wellFormed)
    ∧ (m.clear).wellFormed := by
  refine ⟨?_, ?_, ?_⟩
  · intro i h
    simp [DataItemListModel.addDataItem, List.getElem?_append, h]
  · intro hwf item hmem
    have hmem2 : item ∈ m.dataItems ++ [mkDataItem p] := by
      simpa [DataItemListModel.addDataItem] using hmem
    rcases List.mem_append.mp hmem2 with h1 | h2
    · exact hwf item h1
    · rw [List.mem_singleton.mp h2]
      exact rfl
  · intro item hmem
    simp [DataItemListModel.clear] at hmem

/-- Witness for C8 at a concrete one-item model. -/
theorem dataItems_immutable_witness :
    ((⟨[mkDataItem "survey.shp"]⟩ : DataItemListModel).addDataItem "b.kml").dataItems[0]?
        = some (mkDataItem "survey.shp")
    ∧ ((⟨[mkDataItem "survey.shp"]⟩ : DataItemListModel).addDataItem "b.kml").wellFormed := by
  have h := dataItems_immutable ⟨[mkDataItem "survey.shp"]⟩ "b.kml"
  constructor
  · exact (h.1 0 (by decide)).trans rfl
  · refine h.2.1 ?_
    intro item hmem
    rw [List.mem_singleton.mp hmem]
    exact rfl

/-- Counterexample to C3: at index -1 the accessors do not return the
`Unknown`/empty defaults — the `index >= size()` guard passes a
negative index through to `QList::at`, an out-of-bounds access
(modelled as `none`). -/
theorem getDataItem_negative_unguarded :
    DataItemListModel.getDataItemType ⟨[]⟩ (-1) ≠ some DataType.Unknown
    ∧ DataItemListModel.getDataItemPath ⟨[]⟩ (-1) ≠ some "" := by
  decide

/-- C3 (amended): for every index at least `count`, `getDataItemType`
returns `DataType::Unknown` and `getDataItemPath` returns the empty
`QString`; a negative index is not guarded and reaches an out-of-bounds
`QList::at` access. -/
theorem getDataItem_out_of_range (m : DataItemListModel) (i : Int) :
    ((m.dataItems.length : Int) ≤ i →
        m.getDataItemType i = some DataType.Unknown ∧ m.getDataItemPath i = some "")
    ∧ (i < 0 →
        m.getDataItemType i = none ∧ m.getDataItemPath i = none) := by
  constructor
  · intro h
    constructor
    · unfold DataItemListModel.getDataItemType
      rw [if_pos h]
    · unfold DataItemListModel.getDataItemPath
      rw [if_pos h]
  · intro h
    have hlen : ¬((m.dataItems.length : Int) ≤ i) := by omega
    have hq : qlistAt m.dataItems i = none := by
      unfold qlistAt
      rw [if_neg (by omega)]
    constructor
    · unfold DataItemListModel.getDataItemType
      rw [if_neg hlen, hq]
      rfl
    · unfold DataItemListModel.getDataItemPath
      rw [if_neg hlen, hq]
      rfl

/-- Witness for the amended C3 at concrete indices on the empty
model. -/
theorem getDataItem_out_of_range_witness :
    DataItemListModel.getDataItemType ⟨[]⟩ 5 = some DataType.Unknown
    ∧ DataItemListModel.getDataItemPath ⟨[]⟩ (-2) = none := by
  constructor
  · exact ((getDataItem_out_of_range ⟨[]⟩ 5).1 (by decide)).1
  · exact ((getDataItem_out_of_range ⟨[]⟩ (-2)).2 (by decide)).2

/-- C2: the `DataItem` constructor assigns the data-type tag as a
function of the file's complete suffix alone, and on the spec's
examples: "survey.shp" is Shapefile, "area.markup" is Markup,
"image.TIF" is Raster, "x.unknownext" is Unknown. -/
theorem dataItem_classification :
    (∀ p q : String,
        completeSuffix (fileNameOf p) = completeSuffix (fileNameOf q) →
          (mkDataItem p).dataType = (mkDataItem q).dataType)
    ∧ (mkDataItem "survey.shp").dataType = DataType.Shapefile
    ∧ (mkDataItem "area.markup").dataType = DataType.Markup
    ∧ (mkDataItem "image.TIF").dataType = DataType.Raster
    ∧ (mkDataItem "x.unknownext").dataType = DataType.Unknown := by
  refine ⟨?_, by decide, by decide, by decide, by decide⟩
  intro p q h
  show classify (completeSuffix (fileNameOf p)) = classify (completeSuffix (fileNameOf q))
  exact congrArg classify h

/-- Witness for C2: two paths with the same complete suffix are
classified alike. -/
theorem dataItem_classification_witness :
    (mkDataItem "data/survey.shp").dataType = (mkDataItem "survey.shp").dataType :=
  dataItem_classification.1 "data/survey.shp" "survey.shp" (by decide)

set_option maxHeartbeats 4000000 in
/-- C4: every listed suffix comparison is case-insensitive — any
string whose ASCII lowercasing is a listed suffix classifies to that
suffix's tag — except the `"geodatabase"` check, which matches only the
exact lowercase spelling. -/
theorem classify_case_sensitivity (e : String) :
    (classify e = DataType.Geodatabase ↔ e = "geodatabase")
    ∧ (strToLower e = "tpk" → classify e = DataType.TilePackage)
    ∧ (strToLower e = "shp" → classify e = DataType.Shapefile)
    ∧ (strToLower e = "gpkg" → classify e = DataType.GeoPackage)
    ∧ (strToLower e = "slpk" → classify e = DataType.SceneLayerPackage)
    ∧ (strToLower e = "vtpk" → classify e = DataType.VectorTilePackage)
    ∧ (strToLower e = "markup" → classify e = DataType.Markup)
    ∧ ((strToLower e = "kml" ∨ strToLower e = "kmz") → classify e = DataType.Kml)
    ∧ (rasterExtensions.contains (strToLower e) → classify e = DataType.Raster) := by
  have hgeo : ∀ hEq : e = "geodatabase", strToLower e = "geodatabase" := by
    intro hEq
    rw [hEq]
    decide
  have hlow : ∀ s : String, strToLower e = s → s ≠ "geodatabase" → (e == "geodatabase") = false := by
    intro s hs hne
    refine beq_eq_false_iff_ne.mpr ?_
    intro hEq
    exact hne (hs.symm.trans (hgeo hEq))
  refine ⟨?_, ?_, ?_, ?_, ?_, ?_, ?_, ?_, ?_⟩
  · constructor
    · intro hcl
      by_contra hne
      have hg : (e == "geodatabase") = false := beq_eq_false_iff_ne.mpr hne
      rw [classify_eq, hg] at hcl
      split_ifs at hcl <;> simp_all
    · intro hEq
      rw [hEq]
      decide
  · intro hL
    rw [classify_eq, hlow _ hL (by decide), hL]
    decide
  · intro hL
    rw [classify_eq, hlow _ hL (by decide), hL]
    decide
  · intro hL
    rw [classify_eq, hlow _ hL (by decide), hL]
    decide
  · intro hL
    rw [classify_eq, hlow _ hL (by decide), hL]
    decide
  · intro hL
    rw [classify_eq, hlow _ hL (by decide), hL]
    decide
  · intro hL
    rw [classify_eq, hlow _ hL (by decide), hL]
    decide
  · intro hL
    rcases hL with hL | hL <;>
      (rw [classify_eq, hlow _ hL (by decide), hL]
       decide)
  · intro hR
    have hmem : strToLower e ∈ rasterExtensions := by
      simpa [List.contains, List.elem_iff] using hR
    have hg : (e == "geodatabase") = false := by
      refine beq_eq_false_iff_ne.mpr ?_
      intro hEq
      rw [hgeo hEq] at hmem
      exact absurd hmem (by decide)
    simp only [rasterExtensions, List.mem_cons, List.not_mem_nil, or_false] at hmem
    rcases hmem with h|h|h|h|h|h|h|h|h|h|h|h|h|h|h|h|h <;>
      (rw [classify_eq, hg, h]
       decide)

/-- Witness for C4: "SHP" is classified Shapefile while
"GEODATABASE" is not classified Geodatabase. -/
theorem classify_case_sensitivity_witness :
    classify "SHP" = DataType.Shapefile
    ∧ classify "GEODATABASE" ≠ DataType.Geodatabase := by
  constructor
  · exact (classify_case_sensitivity "SHP").2.2.1 (by decide)
  · intro hc
    have h := ((classify_case_sensitivity "GEODATABASE").1).mp hc
    exact absurd h (by decide)
